import Mathlib

/-!
Shallow embedding of the core of codebase-digest (src/codebase_digest/app.py):
the glob ignore-pattern matcher (`should_ignore` built on Python's
`fnmatch.fnmatch` and the posixpath helpers it calls), the text/binary
classifier (`is_text_file`), the ignore-file line parser (`load_gitignore`),
and the recursive walker (`analyze_directory`).

Python strings are modelled as Lean `String` (manipulated through their
`List Char` data), raw file bytes as `List Nat`, the scanned directory tree as
the inductive `FSEntry`, and an unreadable file or a permission-denied
directory listing by an explicit flag.  `cwd` (the value of `os.getcwd()`)
is passed explicitly wherever `os.path.abspath`/`os.path.relpath` need it.
-/

/-! ### Embedding of `fnmatch.fnmatch` (CPython 3.11 `fnmatch.translate`
semantics on POSIX: full match, `*` = any run of characters, `?` = one
character, `[...]` character classes with ranges and `!` negation, a `[`
without a closing `]` is a literal). -/

/-- Scan up to the closing `]` of a character class: returns the chars before
it and the rest after it, or `none` when no `]` follows. -/
def scanTail : List Char → Option (List Char × List Char)
  | [] => none
  | ']' :: rest => some ([], rest)
  | c :: rest =>
    match scanTail rest with
    | none => none
    | some (a, r) => some (c :: a, r)

/-- The `j`-scan of `fnmatch.translate` after a `[`: a leading `!` and then a
leading `]` belong to the class body; `none` means the `[` is a literal. -/
def scanClass : List Char → Option (List Char × List Char)
  | '!' :: ']' :: t =>
    match scanTail t with
    | none => none
    | some (a, r) => some ('!' :: ']' :: a, r)
  | '!' :: t =>
    match scanTail t with
    | none => none
    | some (a, r) => some ('!' :: a, r)
  | ']' :: t =>
    match scanTail t with
    | none => none
    | some (a, r) => some (']' :: a, r)
  | t => scanTail t

/-- Membership of a char in a class body: `a-b` is a range, other chars are
literals (a `-` at either end is a literal, as in the regex produced by
`fnmatch.translate`). -/
def classMatch : List Char → Char → Bool
  | [], _ => false
  | a :: '-' :: b :: rest, c => (a ≤ c && c ≤ b) || classMatch rest c
  | a :: rest, c => (a = c) || classMatch rest c

/-- Class body with optional leading `!` negation. -/
def classHit (stuff : List Char) (c : Char) : Bool :=
  match stuff with
  | '!' :: items => !(classMatch items c)
  | items => classMatch items c

/-- Fuel-indexed glob matcher: `globAux fuel pattern text`.  Any fuel larger
than `pattern.length + text.length` is sufficient (each step shortens the
pattern or the text). -/
def globAux : Nat → List Char → List Char → Bool
  | 0, _, _ => false
  | _ + 1, [], s => s.isEmpty
  | fuel + 1, p :: ps, s =>
    if p = '*' then
      globAux fuel ps s ||
        (match s with
         | [] => false
         | _ :: s2 => globAux fuel ('*' :: ps) s2)
    else if p = '?' then
      match s with
      | [] => false
      | _ :: s2 => globAux fuel ps s2
    else if p = '[' then
      match scanClass ps with
      | none =>
        match s with
        | [] => false
        | c :: s2 => (c = '[') && globAux fuel ps s2
      | some (stuff, rest) =>
        match s with
        | [] => false
        | c :: s2 => classHit stuff c && globAux fuel rest s2
    else
      match s with
      | [] => false
      | c :: s2 => (p = c) && globAux fuel ps s2

/-- `fnmatch.fnmatch(name, pattern)` (POSIX `normcase` is the identity). -/
def fnmatch (nm pat : String) : Bool :=
  globAux (pat.data.length + nm.data.length + 1) pat.data nm.data

/-! ### Embedding of the posixpath helpers used by `should_ignore`:
`os.path.basename`, `os.path.relpath`, `os.path.abspath`, `os.path.join`,
and `str.split('/')`. -/

/-- Prepend a char to the first group of a split (helper of `splitChars`). -/
def consHead (c : Char) : List (List Char) → List (List Char)
  | [] => [[c]]
  | g :: gs => (c :: g) :: gs

/-- Python `s.split('/')`: every separator splits, empty pieces kept. -/
def splitChars : List Char → List (List Char)
  | [] => [[]]
  | c :: rest =>
    if c = '/' then [] :: splitChars rest else consHead c (splitChars rest)

/-- Last piece of a split (helper of `basenameChars`). -/
def lastPiece : List (List Char) → List Char
  | [] => []
  | [x] => x
  | _ :: xs => lastPiece xs

/-- `os.path.basename`: everything after the last `/`. -/
def basenameChars (p : List Char) : List Char :=
  lastPiece (splitChars p)

/-- `os.path.join(a, b)` for two components (posixpath). -/
def joinChars (a b : List Char) : List Char :=
  if b.head? = some '/' then b
  else if a = [] then b
  else if a.getLast? = some '/' then a ++ b
  else a ++ '/' :: b

/-- `'/'.join(groups)`. -/
def intercalateSlash : List (List Char) → List Char
  | [] => []
  | [x] => x
  | x :: xs => x ++ '/' :: intercalateSlash xs

/-- Number of leading slashes kept by `posixpath.normpath` (two are kept as
two, one or three-plus collapse to one). -/
def leadingSlashes : List Char → Nat
  | '/' :: '/' :: '/' :: _ => 1
  | '/' :: '/' :: _ => 2
  | '/' :: _ => 1
  | _ => 0

/-- One step of `posixpath.normpath`'s component loop. -/
def normStep (slashes : Nat) (acc : List (List Char)) (comp : List Char) :
    List (List Char) :=
  if comp = [] || comp = ['.'] then acc
  else if !(comp = ['.', '.']) || (slashes = 0 && acc.isEmpty) ||
      (!acc.isEmpty && lastPiece acc = ['.', '.']) then acc ++ [comp]
  else if !acc.isEmpty then acc.dropLast
  else acc

/-- `posixpath.normpath`. -/
def normpathChars (p : List Char) : List Char :=
  if p = [] then ['.']
  else
    let slashes := leadingSlashes p
    let comps := (splitChars p).foldl (normStep slashes) []
    let joined := List.replicate slashes '/' ++ intercalateSlash comps
    if joined = [] then ['.'] else joined

/-- `posixpath.abspath` with an explicit current working directory. -/
def abspathChars (cwd p : List Char) : List Char :=
  normpathChars (if p.head? = some '/' then p else joinChars cwd p)

/-- Length of the common prefix of two component lists
(`genericpath.commonprefix`). -/
def commonPrefixLen : List (List Char) → List (List Char) → Nat
  | a :: as, b :: bs => if a = b then commonPrefixLen as bs + 1 else 0
  | _, _ => 0

/-- `posixpath.relpath(p, start)` with an explicit current working
directory. -/
def relpathChars (cwd p start : List Char) : List Char :=
  let startList := (splitChars (abspathChars cwd start)).filter fun x => !x.isEmpty
  let pathList := (splitChars (abspathChars cwd p)).filter fun x => !x.isEmpty
  let i := commonPrefixLen startList pathList
  let relList := List.replicate (startList.length - i) ['.', '.'] ++ pathList.drop i
  if relList = [] then ['.'] else intercalateSlash relList

/-- `os.path.basename` on `String`. -/
def basename (path : String) : String := ⟨basenameChars path.data⟩

/-- `os.path.join` on `String` (two arguments). -/
def join2 (a b : String) : String := ⟨joinChars a.data b.data⟩

/-- `os.path.abspath` on `String`. -/
def abspath (cwd path : String) : String := ⟨abspathChars cwd.data path.data⟩

/-- `os.path.relpath` on `String`. -/
def relpath (cwd path start : String) : String :=
  ⟨relpathChars cwd.data path.data start.data⟩

/-- Python `rel_path.split(os.sep)` on `String`. -/
def splitOnSlash (s : String) : List String :=
  (splitChars s.data).map fun cs => ⟨cs⟩

/-- Python `pattern.startswith('/')`. -/
def startsWithSlash (s : String) : Bool := s.data.head? = some '/'

/-- Python `pattern[1:]`. -/
def dropFirstChar (s : String) : String := ⟨s.data.tail⟩

/-! ### `should_ignore` (app.py lines 50-64) and, separately, the five
candidate predicates named by the specification (its section 4.2). -/

/-- `should_ignore(path, base_path, ignore_patterns)` from app.py: true as
soon as some pattern matches the basename, the relative path, the absolute
path, the absolute path against `base_path` joined with an anchored
pattern's remainder, or some segment of the relative path. -/
def should_ignore (cwd path base_path : String) (ignore_patterns : List String) : Bool :=
  ignore_patterns.any fun pattern =>
    fnmatch (basename path) pattern ||
    fnmatch (relpath cwd path base_path) pattern ||
    fnmatch (abspath cwd path) pattern ||
    (startsWithSlash pattern &&
      fnmatch (abspath cwd path) (join2 base_path (dropFirstChar pattern))) ||
    (splitOnSlash (relpath cwd path base_path)).any fun part => fnmatch part pattern

/-- Spec candidate 1: the pattern matches the final path segment. -/
def matches_basename (path pattern : String) : Bool :=
  fnmatch (basename path) pattern

/-- Spec candidate 2: the pattern matches the path relative to `base_path`. -/
def matches_rel_path (cwd path base_path pattern : String) : Bool :=
  fnmatch (relpath cwd path base_path) pattern

/-- Spec candidate 3: the pattern matches the absolute normalized path. -/
def matches_abs_path (cwd path pattern : String) : Bool :=
  fnmatch (abspath cwd path) pattern

/-- Spec candidate 4: a `/`-prefixed pattern, anchored at `base_path` joined
with the pattern minus its leading `/`, matches the absolute path. -/
def matches_anchored (cwd path base_path pattern : String) : Bool :=
  startsWithSlash pattern &&
    fnmatch (abspath cwd path) (join2 base_path (dropFirstChar pattern))

/-- Spec candidate 5: the pattern matches some individual segment of the
relative path. -/
def matches_segment (cwd path base_path pattern : String) : Bool :=
  (splitOnSlash (relpath cwd path base_path)).any fun part => fnmatch part pattern

/-- The specification's characterization of the matcher: some pattern in the
set matches at least one of the five candidate strings. -/
def spec_ignored (cwd path base_path : String) (patterns : List String) : Prop :=
  ∃ pattern ∈ patterns,
    matches_basename path pattern = true ∨
    matches_rel_path cwd path base_path pattern = true ∨
    matches_abs_path cwd path pattern = true ∨
    matches_anchored cwd path base_path pattern = true ∨
    matches_segment cwd path base_path pattern = true

/-! ### `is_text_file` (app.py lines 66-73). -/

/-- The byte whitelist of `is_text_file`:
`bytes([7, 8, 9, 10, 12, 13, 27] + list(range(0x20, 0x100)))`. -/
def text_allowed_bytes : List Nat := [7, 8, 9, 10, 12, 13, 27] ++ List.range' 32 224

/-- `is_text_file(file_path)`: reads the first 1024 bytes and reports text
iff no byte survives deletion of the whitelist; `none` models an `IOError`
while opening/reading, which yields `False`. -/
def is_text_file : Option (List Nat) → Bool
  | none => false
  | some content =>
    ((content.take 1024).filter fun b => !(text_allowed_bytes.contains b)).isEmpty

/-! ### Pattern sources (app.py lines 19-31 and 41-48) and the flag-honoring
merge. -/

/-- `DEFAULT_IGNORE_PATTERNS` from app.py. -/
def DEFAULT_IGNORE_PATTERNS : List String :=
  ["*.pyc", "*.pyo", "*.pyd", "__pycache__",
   "node_modules", "bower_components",
   ".git", ".svn", ".hg", ".gitignore",
   "venv", ".venv", "env",
   ".idea", ".vscode",
   "*.log", "*.bak", "*.swp", "*.tmp",
   ".DS_Store",
   "Thumbs.db",
   "build", "dist",
   "*.egg-info",
   "*.so", "*.dylib", "*.dll"]

/-- Python `str.strip()` whitespace (ASCII part). -/
def isPySpace (c : Char) : Bool :=
  c = ' ' || c = '\t' || c = '\n' || c = '\r' || c = '\x0b' || c = '\x0c'

/-- Python `line.strip()`. -/
def pyStrip (s : String) : String :=
  ⟨((s.data.dropWhile isPySpace).reverse.dropWhile isPySpace).reverse⟩

/-- The line rule shared by the ignore-file readers in app.py:
`[line.strip() for line in f if line.strip() and not line.startswith('#')]`. -/
def parse_ignore_file_lines (lines : List String) : List String :=
  (lines.filter fun line =>
    !((pyStrip line).data.isEmpty) && !(line.data.head? = some '#')).map pyStrip

/-- `load_gitignore(path)` from app.py: the parsed lines of `.gitignore` when
the file exists, else the empty list. -/
def load_gitignore (gitignore_exists : Bool) (lines : List String) : List String :=
  if gitignore_exists then parse_ignore_file_lines lines else []

/-- Modelled from the spec: the flag-honoring pattern-source merge (section
4.1's Pattern Source Loader, realized by `IgnorePatternManager` in
`ignore_patterns_manager.py`, which is absent from the source tree — only
its tests are present).  Default patterns, the `.gitignore` lines, the
`.cdigestignore` lines and the caller's extra patterns are merged per the
enable flags; the two ignore files use the line rule of `load_gitignore`
from app.py, and a missing file contributes nothing.  The merged PatternSet
is a set; it is modelled as a list, every theorem about it being a
membership statement. -/
def load_patterns (load_defaults enable_gitignore enable_cdigestignore : Bool)
    (gitignore_exists : Bool) (gitignore_lines : List String)
    (cdigestignore_exists : Bool) (cdigestignore_lines : List String)
    (extra : List String) : List String :=
  (if load_defaults then DEFAULT_IGNORE_PATTERNS else []) ++
  (if enable_gitignore then load_gitignore gitignore_exists gitignore_lines else []) ++
  (if enable_cdigestignore && cdigestignore_exists then
    parse_ignore_file_lines cdigestignore_lines else []) ++
  extra

/-! ### The scanned filesystem and the node tree. -/

/-- A directory entry as seen by the walker: a file with raw bytes, or a
directory with its listing; `denied` means `os.listdir` raises
`PermissionError` for it. -/
inductive FSEntry where
  | file (nm : String) (content : List Nat)
  | dir (nm : String) (denied : Bool) (entries : List FSEntry)

/-- The entry's name (one path segment). -/
def FSEntry.entryName : FSEntry → String
  | .file nm _ => nm
  | .dir nm _ _ => nm

/-- Modelled from the spec: a file node's content (models.py is absent from
the source tree) — decoded text, or the fixed `"[Non-text file]"` sentinel;
text is kept as its raw bytes since lenient UTF-8 decoding is outside the
model. -/
inductive FileContent where
  | textData (bs : List Nat)
  | nonTextPlaceholder

/-- Modelled from the spec: the node tree of models.py (absent from the
source tree) — `file` is `TextFileAnalysis` (name, size, text flag, content,
ignore flag), `dir` is `DirectoryAnalysis` (name, ignore flag, children in
listing order). -/
inductive NodeAnalysis where
  | file (nm : String) (size : Nat) (is_text : Bool)
      (file_content : FileContent) (is_ignored : Bool)
  | dir (nm : String) (is_ignored : Bool) (children : List NodeAnalysis)

/-- The walker's `subdir.is_ignored = is_ignored` assignment. -/
def NodeAnalysis.withIgnored : NodeAnalysis → Bool → NodeAnalysis
  | .file nm sz t c _, b => .file nm sz t c b
  | .dir nm _ ch, b => .dir nm b ch

/-- The node's name. -/
def NodeAnalysis.nodeName : NodeAnalysis → String
  | .file nm _ _ _ _ => nm
  | .dir nm _ _ => nm

/-- The node's children (empty for a file). -/
def NodeAnalysis.nodeChildren : NodeAnalysis → List NodeAnalysis
  | .file _ _ _ _ _ => []
  | .dir _ _ ch => ch

/-- `max_depth is not None and current_depth > max_depth` (app.py line 85). -/
def depthExceeded : Option Nat → Nat → Bool
  | some m, current_depth => current_depth > m
  | none, _ => false

mutual

/-- `analyze_directory(path, ignore_patterns, base_path, include_git,
max_depth, current_depth)` from app.py lines 83-132.  Returns `none` past the
depth limit; otherwise a `DirectoryAnalysis` named after `basename(path)`
whose children come from the listing — empty when the listing raises
`PermissionError` (the `except` on line 129 returns the children appended
before the failure).  (`none` on a plain file is unreachable: the source
only ever recurses into directories.)  Lines 101-102 of the source compute
an unused local and are omitted; debug prints are omitted. -/
def analyze_directory (cwd base_path : String) (ignore_patterns : List String)
    (include_git : Bool) (max_depth : Option Nat) (fs : FSEntry) (path : String)
    (current_depth : Nat) : Option NodeAnalysis :=
  if depthExceeded max_depth current_depth then none
  else
    match fs with
    | .file _ _ => none
    | .dir _ denied entries =>
      some (.dir (basename path) false
        (if denied then []
         else analyze_items cwd base_path ignore_patterns include_git max_depth
           path entries current_depth))

/-- The walker's `for item in os.listdir(path)` loop body: skip `.git`
(unless included), skip entries the matcher marks ignored, turn files into
`TextFileAnalysis` children, recurse into directories and stamp the returned
node's ignore flag. -/
def analyze_items (cwd base_path : String) (ignore_patterns : List String)
    (include_git : Bool) (max_depth : Option Nat) (path : String)
    (items : List FSEntry) (current_depth : Nat) : List NodeAnalysis :=
  match items with
  | [] => []
  | item :: rest =>
    let restNodes := analyze_items cwd base_path ignore_patterns include_git
      max_depth path rest current_depth
    let item_path := join2 path item.entryName
    if item.entryName = ".git" && !include_git then restNodes
    else
      let ign := should_ignore cwd item_path base_path ignore_patterns
      if ign then restNodes
      else
        match item with
        | .file nm content =>
          let istext := is_text_file (some content)
          NodeAnalysis.file nm content.length istext
            (if istext then .textData content else .nonTextPlaceholder) ign :: restNodes
        | .dir _ _ _ =>
          match analyze_directory cwd base_path ignore_patterns include_git
            max_depth item item_path (current_depth + 1) with
          | none => restNodes
          | some subdir => subdir.withIgnored ign :: restNodes

end

/-! ### Rollup queries (section 4.4 of the spec; models.py is absent from the
source tree). -/

mutual

/-- Modelled from the spec: `get_file_count()` — every file node counts one,
a directory folds over its children. -/
def get_file_count : NodeAnalysis → Nat
  | .file _ _ _ _ _ => 1
  | .dir _ _ children => file_count_children children

/-- Fold of `get_file_count` over a child list. -/
def file_count_children : List NodeAnalysis → Nat
  | [] => 0
  | n :: rest => get_file_count n + file_count_children rest

end

mutual

/-- Modelled from the spec: `get_non_ignored_text_content_size()` — a
non-ignored text file contributes its size, an ignored node cuts off its
whole subtree. -/
def get_non_ignored_text_content_size : NodeAnalysis → Nat
  | .file _ sz istext _ ign => if !ign && istext then sz else 0
  | .dir _ ign children => if ign then 0 else text_size_children children

/-- Fold of `get_non_ignored_text_content_size` over a child list. -/
def text_size_children : List NodeAnalysis → Nat
  | [] => 0
  | n :: rest => get_non_ignored_text_content_size n + text_size_children rest

end

/-- A pattern with no glob metacharacters (`*`, `?`, `[`): such a pattern
matches exactly itself. -/
def noSpecial : List Char → Bool
  | [] => true
  | c :: ps => !(c = '*' || c = '?' || c = '[') && noSpecial ps

/-! ### Lemmas about the glob matcher and the path helpers. -/

/-- A pattern without metacharacters matches exactly itself. -/
theorem globAux_literal : ∀ (fuel : Nat) (p s : List Char),
    p.length + s.length < fuel → noSpecial p = true →
    (globAux fuel p s = true ↔ p = s) := by
  intro fuel
  induction fuel with
  | zero => intro p s h _; exact absurd h (Nat.not_lt_zero _)
  | succ n ih =>
    intro p s h hp
    cases p with
    | nil =>
      cases s with
      | nil => simp [globAux]
      | cons d ss => simp [globAux]
    | cons c ps =>
      rw [noSpecial, Bool.and_eq_true] at hp
      obtain ⟨hc, hps⟩ := hp
      simp only [Bool.not_eq_true', Bool.or_eq_false_iff, decide_eq_false_iff_not] at hc
      obtain ⟨⟨hc1, hc2⟩, hc3⟩ := hc
      simp only [globAux, if_neg hc1, if_neg hc2, if_neg hc3]
      cases s with
      | nil => simp
      | cons d ss =>
        have hlen : ps.length + ss.length < n := by
          simp only [List.length_cons] at h; omega
        simp [Bool.and_eq_true, decide_eq_true_eq, ih ps ss hlen hps]

/-- A pattern whose first char is a literal `/` only matches text starting
with `/`. -/
theorem globAux_slash_head (fuel : Nat) (ps s : List Char)
    (h : globAux fuel ('/' :: ps) s = true) : s.head? = some '/' := by
  cases fuel with
  | zero => simp [globAux] at h
  | succ n =>
    simp only [globAux, if_neg (by decide : ¬('/' : Char) = '*'),
      if_neg (by decide : ¬('/' : Char) = '?'),
      if_neg (by decide : ¬('/' : Char) = '[')] at h
    cases s with
    | nil => simp at h
    | cons d ss =>
      simp only [Bool.and_eq_true, decide_eq_true_eq] at h
      rw [List.head?_cons, ← h.1]

theorem consHead_ne_nil (c : Char) (L : List (List Char)) : consHead c L ≠ [] := by
  cases L <;> simp [consHead]

theorem splitChars_ne_nil (l : List Char) : splitChars l ≠ [] := by
  cases l with
  | nil => simp [splitChars]
  | cons c rest =>
    by_cases hc : c = '/'
    · simp [splitChars, hc]
    · simp only [splitChars, if_neg hc]
      exact consHead_ne_nil c _

theorem consHead_no_slash (c : Char) (hc : ¬c = '/') (L : List (List Char))
    (hL : ∀ piece ∈ L, '/' ∉ piece) : ∀ piece ∈ consHead c L, '/' ∉ piece := by
  cases L with
  | nil =>
    intro piece hpiece
    simp only [consHead, List.mem_singleton] at hpiece
    subst hpiece
    intro hmem
    rcases List.mem_singleton.mp hmem with h1
    exact hc h1.symm
  | cons g gs =>
    intro piece hpiece
    rcases List.mem_cons.mp hpiece with h1 | h2
    · subst h1
      intro hmem
      rcases List.mem_cons.mp hmem with h3 | h4
      · exact hc h3.symm
      · exact hL g (List.mem_cons_self g gs) h4
    · exact hL piece (List.mem_cons_of_mem g h2)

/-- The pieces produced by splitting on `/` contain no `/`. -/
theorem splitChars_no_slash : ∀ (l : List Char) (piece : List Char),
    piece ∈ splitChars l → '/' ∉ piece := by
  intro l
  induction l with
  | nil =>
    intro piece h
    simp only [splitChars, List.mem_singleton] at h
    subst h
    simp
  | cons c rest ih =>
    intro piece h
    by_cases hc : c = '/'
    · rw [splitChars, if_pos hc] at h
      rcases List.mem_cons.mp h with h1 | h2
      · subst h1; simp
      · exact ih piece h2
    · rw [splitChars, if_neg hc] at h
      exact consHead_no_slash c hc (splitChars rest) ih piece h

theorem lastPiece_mem : ∀ (L : List (List Char)), L ≠ [] → lastPiece L ∈ L := by
  intro L
  induction L with
  | nil => intro h; exact absurd rfl h
  | cons x xs ih =>
    intro _
    cases xs with
    | nil => simp [lastPiece]
    | cons y ys =>
      rw [show lastPiece (x :: y :: ys) = lastPiece (y :: ys) from rfl]
      exact List.mem_cons_of_mem x (ih (by simp))

theorem basenameChars_no_slash (p : List Char) : '/' ∉ basenameChars p := by
  rw [basenameChars]
  exact splitChars_no_slash p _ (lastPiece_mem _ (splitChars_ne_nil p))

theorem basenameChars_head_ne_slash (p : List Char) :
    (basenameChars p).head? ≠ some '/' := by
  cases h : basenameChars p with
  | nil => simp
  | cons c cs =>
    simp only [List.head?_cons, Ne, Option.some.injEq]
    intro hc
    have hmem := basenameChars_no_slash p
    rw [h] at hmem
    exact hmem (hc ▸ List.mem_cons_self c cs)

theorem intercalateSlash_head (x : List Char) (xs : List (List Char)) (hx : x ≠ []) :
    (intercalateSlash (x :: xs)).head? = x.head? := by
  cases xs with
  | nil => rfl
  | cons y ys =>
    rw [show intercalateSlash (x :: y :: ys) = x ++ '/' :: intercalateSlash (y :: ys)
      from rfl]
    cases x with
    | nil => exact absurd rfl hx
    | cons c cs => rfl

/-- Elements of the component list built by `relpathChars` are nonempty and
start with `.` or an ordinary char, never `/`. -/
theorem memRelPieces (n i : Nat) (z : List Char) (r : List Char)
    (h : r ∈ List.replicate n (['.', '.'] : List Char) ++
      ((splitChars z).filter fun x => !x.isEmpty).drop i) :
    r ≠ [] ∧ r.head? ≠ some '/' := by
  rcases List.mem_append.mp h with h1 | h2
  · have he := List.eq_of_mem_replicate h1
    subst he
    exact ⟨by simp, by simp⟩
  · have h3 : r ∈ (splitChars z).filter fun x => !x.isEmpty :=
      List.mem_of_mem_drop h2
    have h4 := List.mem_filter.mp h3
    have hne : r ≠ [] := by
      intro hnil
      rw [hnil] at h4
      simp at h4
    have hns : '/' ∉ r := splitChars_no_slash z r h4.1
    refine ⟨hne, ?_⟩
    cases r with
    | nil => simp
    | cons c cs =>
      simp only [List.head?_cons, Ne, Option.some.injEq]
      intro hc
      exact hns (hc ▸ List.mem_cons_self c cs)

theorem intercalateOrDot_head (L : List (List Char))
    (hL : ∀ r ∈ L, r ≠ [] ∧ r.head? ≠ some '/') :
    (if L = [] then (['.'] : List Char) else intercalateSlash L).head? ≠ some '/' := by
  by_cases h : L = []
  · rw [if_pos h]; simp
  · rw [if_neg h]
    obtain ⟨r, rs, hr⟩ := List.exists_cons_of_ne_nil h
    subst hr
    rw [intercalateSlash_head r rs (hL r (List.mem_cons_self r rs)).1]
    exact (hL r (List.mem_cons_self r rs)).2

/-- A relative path computed by `relpath` never begins with `/`. -/
theorem relpathChars_head_ne_slash (cwd p start : List Char) :
    (relpathChars cwd p start).head? ≠ some '/' := by
  simp only [relpathChars]
  exact intercalateOrDot_head _ (fun r hr => memRelPieces _ _ _ r hr)

/-- `fnmatch` against a `/`-prefixed pattern forces the text to begin with
`/`. -/
theorem fnmatch_of_slash_pattern (nm pat : String) (hp : startsWithSlash pat = true)
    (h : fnmatch nm pat = true) : nm.data.head? = some '/' := by
  rw [startsWithSlash] at hp
  have hp2 : pat.data.head? = some '/' := of_decide_eq_true hp
  cases hpd : pat.data with
  | nil => rw [hpd] at hp2; simp at hp2
  | cons c ps =>
    rw [hpd] at hp2
    rw [List.head?_cons, Option.some.injEq] at hp2
    rw [fnmatch, hpd] at h
    rw [hp2] at h
    exact globAux_slash_head _ _ _ h

theorem matches_basename_slash_false (path pattern : String)
    (hp : startsWithSlash pattern = true) : matches_basename path pattern = false := by
  cases hfb : matches_basename path pattern
  · rfl
  · exfalso
    rw [matches_basename] at hfb
    have hh := fnmatch_of_slash_pattern _ _ hp hfb
    exact basenameChars_head_ne_slash path.data hh

theorem matches_rel_path_slash_false (cwd path base_path pattern : String)
    (hp : startsWithSlash pattern = true) :
    matches_rel_path cwd path base_path pattern = false := by
  cases hfb : matches_rel_path cwd path base_path pattern
  · rfl
  · exfalso
    rw [matches_rel_path] at hfb
    have hh := fnmatch_of_slash_pattern _ _ hp hfb
    exact relpathChars_head_ne_slash cwd.data path.data base_path.data hh

/-- `fnmatch` on a metacharacter-free pattern is equality. -/
theorem fnmatch_literal (nm pat : String) (h : noSpecial pat.data = true) :
    (fnmatch nm pat = true ↔ pat = nm) := by
  rw [fnmatch, globAux_literal _ _ _ (by omega) h]
  constructor
  · intro hd
    cases nm
    cases pat
    exact congrArg String.mk hd
  · intro he
    rw [he]

/-! ### The claims. -/

/-- C1: the claim says the walker adds ignored entries as child nodes with
`is_ignored = true` instead of pruning them, so that the claimed scenario
(files `a.txt` = "hello" and binary `b.bin` under pattern set `{"*.bin"}`)
yields `file_count() = 2` and a `b.bin` node.  The code does the opposite:
`b.bin` is classified as ignored by the matcher, and the `continue` on
app.py lines 104-105 then drops it, so the resulting tree holds only the
`a.txt` node, `file_count()` is 1, `non_ignored_text_size()` is 5, and no
child is named `b.bin`. -/
theorem C1_walker_prunes_divergence :
    should_ignore ("/r") ("/r/b.bin") ("/r") [("*.bin")] = true ∧
    analyze_directory ("/r") ("/r") [("*.bin")] false none
      (.dir ("r") false
        [.file ("a.txt") [104, 101, 108, 108, 111], .file ("b.bin") [0, 255, 1]])
      ("/r") 0
    = some (.dir ("r") false
        [.file ("a.txt") 5 true (.textData [104, 101, 108, 108, 111]) false]) ∧
    get_file_count (.dir ("r") false
        [.file ("a.txt") 5 true (.textData [104, 101, 108, 108, 111]) false]) = 1 ∧
    get_non_ignored_text_content_size (.dir ("r") false
        [.file ("a.txt") 5 true (.textData [104, 101, 108, 108, 111]) false]) = 5 ∧
    ((NodeAnalysis.dir ("r") false
        [.file ("a.txt") 5 true (.textData [104, 101, 108, 108, 111]) false]).nodeChildren.all
      fun n => !(n.nodeName = ("b.bin" : String))) = true :=
  ⟨by decide, by rfl, by rfl, by rfl, by decide⟩

/-- C2: when the `.gitignore` source is enabled and the file exists, every
parsed (non-blank, non-comment, stripped) line of it is a member of the
merged pattern set returned by the loader. -/
theorem C2_gitignore_merged (load_defaults enable_cdigestignore : Bool)
    (gitignore_lines : List String) (cdigestignore_exists : Bool)
    (cdigestignore_lines extra : List String) :
    ∀ l ∈ load_gitignore true gitignore_lines,
      l ∈ load_patterns load_defaults true enable_cdigestignore true gitignore_lines
        cdigestignore_exists cdigestignore_lines extra := by
  intro l hl
  rw [load_patterns]
  refine List.mem_append.mpr (Or.inl (List.mem_append.mpr (Or.inl
    (List.mem_append.mpr (Or.inr ?_)))))
  simpa using hl

theorem C2_gitignore_merged_witness :
    ("foo" : String) ∈ load_gitignore true [("foo"), ("# note"), (""), ("bar")] ∧
    ("foo" : String) ∈ load_patterns true true true true
      [("foo"), ("# note"), (""), ("bar")] false [] [] :=
  ⟨by decide, C2_gitignore_merged true true [("foo"), ("# note"), (""), ("bar")] false [] []
    ("foo") (by decide)⟩

/-- C3: `should_ignore` returns true iff some pattern in the set matches at
least one of the five candidate strings (basename, relative path, absolute
path, anchored form for `/`-prefixed patterns, or an individual segment of
the relative path); the wildcards are not path-separator-aware (`*` and `?`
match across `/`). -/
theorem C3_should_ignore_candidates :
    (∀ (cwd path base_path : String) (patterns : List String),
      should_ignore cwd path base_path patterns = true ↔
        spec_ignored cwd path base_path patterns) ∧
    fnmatch ("a/b") ("a*") = true ∧ fnmatch ("a/b") ("a?b") = true ∧
    fnmatch ("axc") ("a?c") = true ∧ fnmatch ("ac") ("a?c") = false := by
  refine ⟨?_, by decide, by decide, by decide, by decide⟩
  intro cwd path base_path patterns
  rw [should_ignore, spec_ignored]
  rw [List.any_eq_true]
  constructor
  · rintro ⟨p, hp, hm⟩
    refine ⟨p, hp, ?_⟩
    simp only [matches_basename, matches_rel_path, matches_abs_path, matches_anchored,
      matches_segment, Bool.or_eq_true, Bool.and_eq_true, or_assoc] at hm ⊢
    exact hm
  · rintro ⟨p, hp, hm⟩
    refine ⟨p, hp, ?_⟩
    simp only [matches_basename, matches_rel_path, matches_abs_path, matches_anchored,
      matches_segment, Bool.or_eq_true, Bool.and_eq_true, or_assoc] at hm ⊢
    exact hm

/-- C4 counterexample: under `base_path = "/h"` (with `cwd = "/h"`), the
anchored pattern `"/h*"` ignores `"/h/q"` even though neither the anchored
candidate (`"/h/h*"`), nor the segment rule, nor the basename or
relative-path candidates match it — the absolute-path candidate fires.  So
a `/`-prefixed pattern does not ignore only anchored-or-segment-matched
paths, refuting the claim as stated. -/
theorem C4_anchored_counterexample :
    should_ignore ("/h") ("/h/q") ("/h") [("/h*")] = true ∧
    matches_anchored ("/h") ("/h/q") ("/h") ("/h*") = false ∧
    matches_segment ("/h") ("/h/q") ("/h") ("/h*") = false ∧
    matches_basename ("/h/q") ("/h*") = false ∧
    matches_rel_path ("/h") ("/h/q") ("/h") ("/h*") = false := by
  refine ⟨by decide, by decide, by decide, by decide, by decide⟩

/-- C4 amended: for a `/`-prefixed pattern the basename and relative-path
candidates can never match (those candidate strings never begin with `/`),
so `should_ignore` with that single pattern holds iff the absolute-path
candidate, the anchored candidate (`base_path` joined with the pattern
minus its leading `/`), or the per-segment rule matches — in particular an
anchored pattern can still fire, via the absolute-path candidate, on paths
that are neither anchored at `base_path` + remainder nor segment-matched. -/
theorem C4_anchored_amended (cwd path base_path pattern : String)
    (h : startsWithSlash pattern = true) :
    matches_basename path pattern = false ∧
    matches_rel_path cwd path base_path pattern = false ∧
    (should_ignore cwd path base_path [pattern] = true ↔
      (matches_abs_path cwd path pattern = true ∨
       matches_anchored cwd path base_path pattern = true ∨
       matches_segment cwd path base_path pattern = true)) := by
  have h1 := matches_basename_slash_false path pattern h
  have h2 := matches_rel_path_slash_false cwd path base_path pattern h
  refine ⟨h1, h2, ?_⟩
  rw [matches_basename] at h1
  rw [matches_rel_path] at h2
  rw [should_ignore]
  simp only [List.any_eq_true, List.mem_singleton, exists_eq_left, h1, h2,
    matches_abs_path, matches_anchored, matches_segment, Bool.or_eq_true,
    Bool.and_eq_true, Bool.false_eq_true, false_or, or_assoc]

theorem C4_anchored_amended_witness :
    startsWithSlash ("/h*") = true ∧
    (matches_basename ("/h/q") ("/h*") = false ∧
     matches_rel_path ("/h") ("/h/q") ("/h") ("/h*") = false ∧
     (should_ignore ("/h") ("/h/q") ("/h") [("/h*")] = true ↔
       (matches_abs_path ("/h") ("/h/q") ("/h*") = true ∨
        matches_anchored ("/h") ("/h/q") ("/h") ("/h*") = true ∨
        matches_segment ("/h") ("/h/q") ("/h") ("/h*") = true))) :=
  ⟨by decide, C4_anchored_amended ("/h") ("/h/q") ("/h") ("/h*") (by decide)⟩

/-- C5: a bare metacharacter-free pattern ignores every path that has it as
an exact segment of the relative path (`should_ignore` fires through the
segment rule), and the segment rule holds exactly when the pattern equals
one of the segments — so a name that is only a proper substring of a
segment (`sub` against `a/subdir/file.txt`) does not trigger it; the
concrete instances of the claim are checked at the end. -/
theorem C5_segment_rule :
    (∀ (cwd base_path path p : String), noSpecial p.data = true →
      ((p ∈ splitOnSlash (relpath cwd path base_path) →
          should_ignore cwd path base_path [p] = true) ∧
       (matches_segment cwd path base_path p = true ↔
          p ∈ splitOnSlash (relpath cwd path base_path)))) ∧
    should_ignore ("/b") ("/b/a/sub/file.txt") ("/b") [("sub")] = true ∧
    should_ignore ("/b") ("/b/a/b/sub/file.txt") ("/b") [("sub")] = true ∧
    matches_segment ("/b") ("/b/a/subdir/file.txt") ("/b") ("sub") = false ∧
    should_ignore ("/b") ("/b/a/subdir/file.txt") ("/b") [("sub")] = false := by
  refine ⟨?_, by decide, by decide, by decide, by decide⟩
  intro cwd base_path path p hp
  have hseg : matches_segment cwd path base_path p = true ↔
      p ∈ splitOnSlash (relpath cwd path base_path) := by
    rw [matches_segment, List.any_eq_true]
    constructor
    · rintro ⟨part, hmem, hm⟩
      rw [fnmatch_literal part p hp] at hm
      exact hm ▸ hmem
    · intro hmem
      exact ⟨p, hmem, (fnmatch_literal p p hp).mpr rfl⟩
  refine ⟨?_, hseg⟩
  intro hmem
  have h5 : matches_segment cwd path base_path p = true := hseg.mpr hmem
  rw [matches_segment] at h5
  rw [should_ignore]
  simp only [List.any_eq_true, List.mem_singleton, exists_eq_left, Bool.or_eq_true]
  exact Or.inr (List.any_eq_true.mp h5)

theorem C5_segment_rule_witness :
    noSpecial (("sub" : String)).data = true ∧
    ((("sub" : String) ∈ splitOnSlash (relpath ("/b") ("/b/x/sub/y.txt") ("/b")) →
        should_ignore ("/b") ("/b/x/sub/y.txt") ("/b") [("sub")] = true) ∧
     (matches_segment ("/b") ("/b/x/sub/y.txt") ("/b") ("sub") = true ↔
        ("sub" : String) ∈ splitOnSlash (relpath ("/b") ("/b/x/sub/y.txt") ("/b")))) :=
  ⟨by decide, C5_segment_rule.1 ("/b") ("/b") ("/b/x/sub/y.txt") ("sub") (by decide)⟩

/-- C6: once the configured maximum depth is exceeded the recursion returns
`none` (so the caller's `if subdir:` appends nothing, and the branch is
omitted entirely); with `max_depth = 0` on a directory containing one
subdirectory, the root node's child list is empty. -/
theorem C6_max_depth :
    (∀ (cwd base_path : String) (patterns : List String) (include_git : Bool)
      (m : Nat) (fs : FSEntry) (path : String) (current_depth : Nat),
      current_depth > m →
      analyze_directory cwd base_path patterns include_git (some m) fs path
        current_depth = none) ∧
    analyze_directory ("/r") ("/r") [] false (some 0)
      (.dir ("r") false [.dir ("s") false [.file ("f.txt") [104]]]) ("/r") 0
    = some (.dir ("r") false []) := by
  refine ⟨?_, by rfl⟩
  intro cwd base_path patterns include_git m fs path current_depth h
  have hd : depthExceeded (some m) current_depth = true := by
    simp only [depthExceeded, decide_eq_true_eq]
    omega
  rw [analyze_directory.eq_def, hd]
  simp

theorem C6_max_depth_witness :
    1 > 0 ∧
    analyze_directory ("/r") ("/r") [] false (some 0) (.dir ("s") false [])
      ("/r/s") 1 = none :=
  ⟨by decide,
    C6_max_depth.1 ("/r") ("/r") [] false 0 (.dir ("s") false []) ("/r/s") 1 (by decide)⟩

/-- C7: a `PermissionError` while listing a directory is caught inside the
walk of that directory — the result is still `some` node, whose children are
exactly those appended before the failure (none, since `os.listdir` raises
before yielding) — so the walk never propagates the error; in the concrete
three-subdirectory scenario the denied middle subdirectory becomes an
empty node while the other two are fully analyzed. -/
theorem C7_permission_error :
    (∀ (cwd base_path : String) (patterns : List String) (include_git : Bool)
      (max_depth : Option Nat) (nm : String) (denied : Bool) (entries : List FSEntry)
      (path : String) (current_depth : Nat),
      depthExceeded max_depth current_depth = false →
      analyze_directory cwd base_path patterns include_git max_depth
        (.dir nm denied entries) path current_depth
      = some (.dir (basename path) false
          (if denied then []
           else analyze_items cwd base_path patterns include_git max_depth path
             entries current_depth))) ∧
    analyze_directory ("/r") ("/r") [] false none
      (.dir ("r") false
        [.dir ("s1") false [.file ("f1.txt") [104, 105]],
         .dir ("s2") true [.file ("g.txt") [104]],
         .dir ("s3") false [.file ("f3.txt") [119]]]) ("/r") 0
    = some (.dir ("r") false
        [.dir ("s1") false [.file ("f1.txt") 2 true (.textData [104, 105]) false],
         .dir ("s2") false [],
         .dir ("s3") false [.file ("f3.txt") 1 true (.textData [119]) false]]) := by
  refine ⟨?_, by rfl⟩
  intro cwd base_path patterns include_git max_depth nm denied entries path
    current_depth h
  rw [analyze_directory.eq_def, h]
  simp

theorem C7_permission_error_witness :
    depthExceeded none 0 = false ∧
    analyze_directory ("/r") ("/r") [] false none
      (.dir ("r") true [.file ("g.txt") [104]]) ("/r") 0
    = some (.dir (basename ("/r")) false
        (if true then []
         else analyze_items ("/r") ("/r") [] false none ("/r")
           [.file ("g.txt") [104]] 0)) :=
  ⟨rfl, C7_permission_error.1 ("/r") ("/r") [] false none ("r") true
    [.file ("g.txt") [104]] ("/r") 0 rfl⟩

/-- C8: the classifier looks only at the first 1024 bytes (taking a longer
prefix changes nothing), reports text exactly when no byte of that prefix
falls outside the allowed set (bytes 7, 8, 9, 10, 12, 13, 27 and
0x20-0xFF), and reports "not text" on an unreadable file instead of
raising. -/
theorem C8_text_classifier :
    (∀ content : List Nat,
      (is_text_file (some content) = true ↔
        ∀ b ∈ content.take 1024, b ∈ text_allowed_bytes)) ∧
    (∀ content : List Nat,
      is_text_file (some content) = is_text_file (some (content.take 1024))) ∧
    is_text_file none = false := by
  refine ⟨?_, ?_, rfl⟩
  · intro content
    rw [is_text_file]
    simp [List.isEmpty_iff, List.filter_eq_nil_iff]
  · intro content
    rw [is_text_file, is_text_file, List.take_take, Nat.min_self]

/-- C9: `should_ignore` is monotone in the pattern set — enlarging the set
never un-ignores a path. -/
theorem C9_should_ignore_monotone (cwd path base_path : String) (P Q : List String)
    (hsub : ∀ p ∈ P, p ∈ Q) (h : should_ignore cwd path base_path P = true) :
    should_ignore cwd path base_path Q = true := by
  rw [should_ignore, List.any_eq_true] at h ⊢
  obtain ⟨p, hp, hm⟩ := h
  exact ⟨p, hsub p hp, hm⟩

theorem C9_should_ignore_monotone_witness :
    (∀ p ∈ [("*.txt" : String)], p ∈ [("*.txt" : String), ("x")]) ∧
    should_ignore ("/b") ("/b/a.txt") ("/b") [("*.txt")] = true ∧
    should_ignore ("/b") ("/b/a.txt") ("/b") [("*.txt"), ("x")] = true :=
  ⟨by decide, by decide,
    C9_should_ignore_monotone ("/b") ("/b/a.txt") ("/b") [("*.txt")]
      [("*.txt"), ("x")] (by decide) (by decide)⟩

/-- C10: a file whose 1024-byte probe reads an empty byte string is always
classified as text. -/
theorem C10_empty_file_text (content : List Nat) (h : content.take 1024 = []) :
    is_text_file (some content) = true := by
  rw [is_text_file, h]
  rfl

theorem C10_empty_file_text_witness :
    (([] : List Nat).take 1024 = []) ∧ is_text_file (some ([] : List Nat)) = true :=
  ⟨rfl, C10_empty_file_text [] rfl⟩
